import Mathlib

/-!
Shallow embedding of `mopidy_mpd/network.py`: the `Server` accept layer,
the per-connection non-blocking I/O layer (`Connection`), and the line
framing layer (`LineProtocol`).

Modelling conventions:
* Byte strings are `List Nat` (one `Nat` per byte).
* OS calls are driven by explicit oracle arguments: `Except Errno n` for a
  `send` that accepted `n` bytes or raised `OSError(errno)`, and similarly
  for `recv`, `accept` and watch registration.  The Python code runs on
  platforms where `errno.EAGAIN == errno.EWOULDBLOCK`, so the model uses a
  single constructor `Errno.eagain` for both names.
* GLib watch/timer source ids only ever matter through `is None` tests, so
  they are modelled as `Option Unit`.
* Exceptions that the code swallows (`OSError` on `close`, `ActorDeadError`
  on `actor_ref.stop`) are modelled as unconditional effects; ghost
  counters (`close_calls`, watch-removal counters) record how many times
  each effect was executed, and `accepted` records every byte the OS
  accepted from `send`.
* The callbacks run on a single GLib thread; `send_lock` contention from
  the worker thread is modelled by the explicit `lockAcquired` argument of
  `send_callback` (the only non-blocking acquisition in the code).
-/

/-- Bytes as lists of natural numbers. -/
abbrev Bytes := List Nat

/-- The errno values the code distinguishes.  `eagain` stands for the
shared numeric value of `errno.EAGAIN` and `errno.EWOULDBLOCK`; `other`
covers every remaining errno. -/
inductive Errno
  | eagain
  | eintr
  | other
deriving DecidableEq, Repr

/-- State of one `Connection` object, plus ghost counters for the effects
the claims talk about (socket closes, watch deregistrations, bytes the OS
accepted). -/
structure Connection where
  send_buffer : Bytes
  stopping : Bool
  recv_id : Option Unit
  send_id : Option Unit
  timeout_id : Option Unit
  timeout : Option Int
  close_calls : Nat
  actor_stop_calls : Nat
  recv_removals : Nat
  send_removals : Nat
  timeout_removals : Nat
  accepted : Bytes
deriving DecidableEq, Repr

/-- `Connection.disable_timeout`: `if self.timeout_id is None: return;
GLib.source_remove(self.timeout_id); self.timeout_id = None`. -/
def Connection.disable_timeout (s : Connection) : Connection :=
  if s.timeout_id = none then s
  else { s with timeout_id := none, timeout_removals := s.timeout_removals + 1 }

/-- `Connection.disable_recv`: same shape as `disable_timeout`. -/
def Connection.disable_recv (s : Connection) : Connection :=
  if s.recv_id = none then s
  else { s with recv_id := none, recv_removals := s.recv_removals + 1 }

/-- `Connection.disable_send`: same shape as `disable_timeout`. -/
def Connection.disable_send (s : Connection) : Connection :=
  if s.send_id = none then s
  else { s with send_id := none, send_removals := s.send_removals + 1 }

/-- `Connection.stop(reason)`: if already stopping, only logs and returns;
otherwise sets `stopping`, asks the actor to stop (ignoring
`ActorDeadError`), disables the three watches in order, and closes the
socket (ignoring `OSError`).  The `reason` string only reaches the logger
and is omitted. -/
def Connection.stop (s : Connection) : Connection :=
  if s.stopping then s
  else
    let s1 := { s with stopping := true, actor_stop_calls := s.actor_stop_calls + 1 }
    let s2 := s1.disable_timeout
    let s3 := s2.disable_recv
    let s4 := s3.disable_send
    { s4 with close_calls := s4.close_calls + 1 }

/-- `Connection.enable_timeout`: returns immediately when `self.timeout is
None or self.timeout <= 0`; otherwise disables any pending timer, then
arms a fresh single-shot timer. -/
def Connection.enable_timeout (s : Connection) : Connection :=
  match s.timeout with
  | none => s
  | some t =>
    if t ≤ 0 then s
    else
      let s1 := s.disable_timeout
      { s1 with timeout_id := some () }

/-- `Connection.enable_recv`: no-op when already registered; otherwise
registers an IO_IN watch, and on `OSError` from registration stops the
connection. -/
def Connection.enable_recv (s : Connection) (reg : Except Unit Unit) : Connection :=
  if s.recv_id ≠ none then s
  else
    match reg with
    | .ok _ => { s with recv_id := some () }
    | .error _ => s.stop

/-- `Connection.enable_send`: no-op when already registered; otherwise
registers an IO_OUT watch, and on `OSError` from registration stops the
connection. -/
def Connection.enable_send (s : Connection) (reg : Except Unit Unit) : Connection :=
  if s.send_id ≠ none then s
  else
    match reg with
    | .ok _ => { s with send_id := some () }
    | .error _ => s.stop

/-- `Connection.send(data)`: try `self._sock.send(data)`; on success the OS
accepted `sent` bytes and `data[sent:]` is returned as unsent; on a
would-block/interrupted error all data is returned unsent; on any other
`OSError` the connection is stopped and `b""` is returned.  The bytes the
OS accepted are appended to the ghost field `accepted`. -/
def Connection.send (s : Connection) (data : Bytes) (os : Except Errno Nat) :
    Connection × Bytes :=
  match os with
  | .ok sent => ({ s with accepted := s.accepted ++ data.take sent }, data.drop sent)
  | .error e =>
    if e = .eagain ∨ e = .eintr then (s, data)
    else (s.stop, [])

/-- `Connection.queue_send(data)`: under the send lock (blocking acquire,
always succeeds), `self.send_buffer = self.send(self.send_buffer + data)`;
afterwards the write watch is armed iff data remains. -/
def Connection.queue_send (s : Connection) (data : Bytes) (os : Except Errno Nat)
    (reg : Except Unit Unit) : Connection :=
  let p := s.send (s.send_buffer ++ data) os
  let s2 := { p.1 with send_buffer := p.2 }
  if p.2 ≠ [] then s2.enable_send reg else s2

/-- `Connection.send_callback(fd, flags)`: stop on IO_ERR/IO_HUP flags;
defer (returning `True`) when the non-blocking lock acquisition fails;
otherwise re-send the buffer and disarm the write watch once empty.
Always returns `True` to GLib. -/
def Connection.send_callback (s : Connection) (badFlags : Bool) (lockAcquired : Bool)
    (os : Except Errno Nat) : Connection :=
  if badFlags then s.stop
  else if !lockAcquired then s
  else
    let p := s.send s.send_buffer os
    let s2 := { p.1 with send_buffer := p.2 }
    if p.2 = [] then s2.disable_send else s2

/-- Messages the connection tells its worker actor. -/
inductive Message
  | close
  | received (data : Bytes)
deriving DecidableEq, Repr

/-- `Connection.recv_callback(fd, flags)`: stop on IO_ERR/IO_HUP; a
would-block/interrupted `recv` error is ignored, any other `OSError`
stops the connection; an empty read disables the read watch and tells the
worker `{"close": True}` (the code assumes a live actor here: this `tell`
is not guarded against `ActorDeadError`); a non-empty read is delivered
as `{"received": data}`, and `ActorDeadError` from that delivery stops
the connection.  The returned list holds the messages delivered to the
worker's mailbox. -/
def Connection.recv_callback (s : Connection) (badFlags : Bool)
    (os : Except Errno Bytes) (actorDead : Bool) : Connection × List Message :=
  if badFlags then (s.stop, [])
  else
    match os with
    | .error e =>
      if e = .eagain ∨ e = .eintr then (s, []) else (s.stop, [])
    | .ok data =>
      if data = [] then (s.disable_recv, [.close])
      else if actorDead then (s.stop, [])
      else (s, [.received data])

/-- `Connection.timeout_callback`: stops the connection and returns
`False`, which removes the GLib timeout source (single-shot). -/
def Connection.timeout_callback (s : Connection) : Connection × Bool :=
  (s.stop, false)

/-- `Connection.__init__` as far as the modelled state is concerned: fresh
buffers and flags, then `enable_recv()` and `enable_timeout()`. -/
def Connection.init (timeout : Option Int) (reg : Except Unit Unit) : Connection :=
  let s : Connection :=
    { send_buffer := [], stopping := false, recv_id := none, send_id := none,
      timeout_id := none, timeout := timeout, close_calls := 0,
      actor_stop_calls := 0, recv_removals := 0, send_removals := 0,
      timeout_removals := 0, accepted := [] }
  (s.enable_recv reg).enable_timeout

/-! ## Server: bind-target validation and accept-time admission control -/

/-- `get_unix_socket_path(socket_path)`: `re.search("^unix:(.*)",
socket_path)` matches exactly when the string starts with `unix:` and
captures the rest (socket paths contain no newline, so `(.*)` captures
everything after the prefix).  Host strings are modelled as `List Char`. -/
def get_unix_socket_path (socket_path : List Char) : Option (List Char) :=
  match socket_path with
  | 'u' :: 'n' :: 'i' :: 'x' :: ':' :: rest => some rest
  | _ => none

/-- Result of `Server.create_server_socket(host, port)`: either a Unix
domain socket bound to the extracted path, or a TCP socket bound to
`(host, port)`, or the `TypeError` raised when the host is not a `unix:`
target and the port is not an `int` (modelled as `port = none`). -/
inductive BindResult
  | unixSock (path : List Char)
  | tcpSock (host : List Char) (port : Int)
  | typeError
deriving DecidableEq, Repr

/-- `Server.create_server_socket(host, port)`: when the host carries a
`unix:` path the port is never examined; otherwise a non-`int` port
raises `TypeError`. -/
def Server.create_server_socket (host : List Char) (port : Option Int) : BindResult :=
  match get_unix_socket_path host with
  | some p => .unixSock p
  | none =>
    match port with
    | some n => .tcpSock host n
    | none => .typeError

/-- Outcome of `Server.accept_connection`: a socket, a
`ShouldRetrySocketCall` (raised on EAGAIN/EINTR), or a re-raised
`OSError`. -/
inductive AcceptStep
  | got
  | retry
  | raised (e : Errno)
deriving DecidableEq, Repr

/-- `Server.accept_connection`: `self.server_socket.accept()` driven by an
oracle; `OSError` with errno EAGAIN/EINTR becomes
`ShouldRetrySocketCall`, anything else is re-raised. -/
def Server.accept_connection (os : Except Errno Unit) : AcceptStep :=
  match os with
  | .ok _ => .got
  | .error e =>
    if e = .eagain ∨ e = .eintr then .retry else .raised e

/-- `Server.maximum_connections_exceeded`: `self.max_connections is not
None and self.number_of_connections() >= self.max_connections`, where
`number_of_connections` is the number of live actors of the protocol
class (`n` here). -/
def Server.maximum_connections_exceeded (max_connections : Option Nat) (n : Nat) : Bool :=
  match max_connections with
  | none => false
  | some k => decide (n ≥ k)

/-- What `Server.handle_connection` did: returned `True` after a
`ShouldRetrySocketCall` (watch stays armed, nothing created), rejected
and closed the new socket, created a `Connection`+worker pair, or let an
unexpected accept `OSError` propagate. -/
inductive HandleOutcome
  | retried
  | rejected
  | connected
  | raised (e : Errno)
deriving DecidableEq, Repr

/-- `Server.handle_connection(fd, flags)`: accept once; on
`ShouldRetrySocketCall` return `True`; then reject the socket if
`maximum_connections_exceeded()` else build a `Connection`. -/
def Server.handle_connection (max_connections : Option Nat) (n : Nat)
    (os : Except Errno Unit) : HandleOutcome :=
  match Server.accept_connection os with
  | .retry => .retried
  | .raised e => .raised e
  | .got =>
    if Server.maximum_connections_exceeded max_connections n then .rejected
    else .connected

/-! ## LineProtocol: line framing

The default framing of `LineProtocol`: `terminator = b"\n"` and
`delimiter` compiled from the terminator, so `re.search` is a
containment test for the newline byte (10) and `delimiter.split(buf, 1)`
splits at its first occurrence. -/

/-- The newline byte, `b"\n"`. -/
def newline : Nat := 10

/-- `self.delimiter.split(self.recv_buffer, 1)` for the default
delimiter: the part before the first newline and the part after it.
(On input without a newline the whole input ends up in the first
component; `parse_lines` only calls this when a newline is present.) -/
def splitOnce : Bytes → Bytes × Bytes
  | [] => ([], [])
  | b :: rest =>
    if b = newline then ([], rest)
    else
      let p := splitOnce rest
      (b :: p.1, p.2)

theorem splitOnce_append_of_mem {a : Bytes} (b : Bytes) (h : newline ∈ a) :
    splitOnce (a ++ b) = ((splitOnce a).1, (splitOnce a).2 ++ b) := by
  induction a with
  | nil => cases h
  | cons x xs ih =>
    by_cases hx : x = newline
    · simp [splitOnce, hx]
    · have hxs : newline ∈ xs := by
        rcases List.mem_cons.mp h with h1 | h2
        · exact absurd h1.symm hx
        · exact h2
      simp [splitOnce, hx, ih hxs]

theorem splitOnce_snd_length {a : Bytes} (h : newline ∈ a) :
    (splitOnce a).2.length < a.length := by
  induction a with
  | nil => cases h
  | cons x xs ih =>
    by_cases hx : x = newline
    · simp [splitOnce, hx]
    · have hxs : newline ∈ xs := by
        rcases List.mem_cons.mp h with h1 | h2
        · exact absurd h1.symm hx
        · exact h2
      have := ih hxs
      simp [splitOnce, hx]
      omega

/-- Decomposition of a byte string at its first newline. -/
theorem splitOnce_eq_append {a : Bytes} (h : newline ∈ a) :
    a = (splitOnce a).1 ++ newline :: (splitOnce a).2 := by
  induction a with
  | nil => cases h
  | cons x xs ih =>
    by_cases hx : x = newline
    · simp [splitOnce, hx]
    · have hxs : newline ∈ xs := by
        rcases List.mem_cons.mp h with h1 | h2
        · exact absurd h1.symm hx
        · exact h2
      simpa [splitOnce, hx] using ih hxs

/-- `LineProtocol.parse_lines`: `while re.search(self.terminator,
self.recv_buffer): line, self.recv_buffer =
self.delimiter.split(self.recv_buffer, 1); yield line`.  Returns the
yielded lines and the final `recv_buffer`. -/
def parse_lines (buf : Bytes) : List Bytes × Bytes :=
  if h : newline ∈ buf then
    let p := splitOnce buf
    have : p.2.length < buf.length := splitOnce_snd_length h
    let q := parse_lines p.2
    (p.1 :: q.1, q.2)
  else ([], buf)
termination_by buf.length

theorem parse_lines_pos {buf : Bytes} (h : newline ∈ buf) :
    parse_lines buf =
      ((splitOnce buf).1 :: (parse_lines (splitOnce buf).2).1,
       (parse_lines (splitOnce buf).2).2) := by
  rw [parse_lines]
  simp [h]

theorem parse_lines_neg {buf : Bytes} (h : newline ∉ buf) :
    parse_lines buf = ([], buf) := by
  rw [parse_lines]
  simp [h]

/-- After draining, the leftover buffer holds no newline. -/
theorem parse_lines_snd_not_mem (buf : Bytes) : newline ∉ (parse_lines buf).2 := by
  by_cases h : newline ∈ buf
  · rw [parse_lines_pos h]
    exact parse_lines_snd_not_mem (splitOnce buf).2
  · rw [parse_lines_neg h]
    exact h
termination_by buf.length
decreasing_by exact splitOnce_snd_length h

/-- Draining a concatenation: the lines of `a` come first, then the lines
obtained by draining the leftover of `a` followed by `b`. -/
theorem parse_lines_append (a b : Bytes) :
    parse_lines (a ++ b) =
      ((parse_lines a).1 ++ (parse_lines ((parse_lines a).2 ++ b)).1,
       (parse_lines ((parse_lines a).2 ++ b)).2) := by
  by_cases h : newline ∈ a
  · have hab : newline ∈ a ++ b := List.mem_append.mpr (Or.inl h)
    rw [parse_lines_pos hab, parse_lines_pos h, splitOnce_append_of_mem b h]
    have ih := parse_lines_append (splitOnce a).2 b
    rw [ih]
    simp
  · rw [parse_lines_neg h]
    simp
termination_by a.length
decreasing_by exact splitOnce_snd_length h

/-- The worker's successive `"received"` notifications at the framing
level: each one appends its chunk to the persistent `recv_buffer`
(`self.recv_buffer += message["received"]`) and drains `parse_lines`,
exactly as `LineProtocol.on_receive` does.  Returns all lines produced,
in order, and the final `recv_buffer`. -/
def feed_chunks : Bytes → List Bytes → List Bytes × Bytes
  | buf, [] => ([], buf)
  | buf, c :: cs =>
    let p := parse_lines (buf ++ c)
    let q := feed_chunks p.2 cs
    (p.1 ++ q.1, q.2)

theorem feed_chunks_eq_parse_lines (chunks : List Bytes) (buf : Bytes)
    (h : newline ∉ buf) :
    feed_chunks buf chunks = parse_lines (buf ++ chunks.flatten) := by
  induction chunks generalizing buf with
  | nil =>
    simp [feed_chunks, parse_lines_neg h]
  | cons c cs ih =>
    have hrem := parse_lines_snd_not_mem (buf ++ c)
    have h2 := ih (parse_lines (buf ++ c)).2 hrem
    simp only [feed_chunks, List.flatten_cons, h2]
    rw [← List.append_assoc, parse_lines_append (buf ++ c) cs.flatten]

/-! ## LineProtocol: worker state and message handling -/

/-- The per-worker state `LineProtocol.__init__` sets up: the persistent
receive buffer and the timeout-suppression flag. -/
structure LineProtocol where
  recv_buffer : Bytes
  prevent_timeout : Bool
deriving DecidableEq, Repr

/-- Observable steps taken while a worker handles one message: timer
manipulation, a decoded line reaching `on_line_received`, or a request
to stop the connection. -/
inductive WEvent
  | timerDisable
  | timerEnable
  | lineHandled (line : Bytes)
  | stopRequested
deriving DecidableEq, Repr

/-- The body of the `for line in self.parse_lines():` loop: decode each
line and hand the successfully decoded ones to `on_line_received`, in
order.  `d` is the protocol's `decode` (returning `None` on failure). -/
def process_lines (d : Bytes → Option Bytes) : List Bytes → List WEvent
  | [] => []
  | l :: ls =>
    match d l with
    | some dl => WEvent.lineHandled dl :: process_lines d ls
    | none => process_lines d ls

/-- `LineProtocol.on_receive(message)`: a `{"close": True}` message stops
the connection and returns before any line handling; a `{"received":
data}` message disables the idle timer, appends the data to
`recv_buffer`, drains and handles every framed line, and finally calls
`enable_timeout()` unless `prevent_timeout` is set.  Returns the new
worker state, the new connection state, and the events in program
order. -/
def LineProtocol.on_receive (ps : LineProtocol) (cs : Connection)
    (d : Bytes → Option Bytes) : Message → LineProtocol × Connection × List WEvent
  | .close => (ps, cs.stop, [WEvent.stopRequested])
  | .received data =>
    let cs1 := cs.disable_timeout
    let p := parse_lines (ps.recv_buffer ++ data)
    let evs := process_lines d p.1
    let ps1 := { ps with recv_buffer := p.2 }
    if ps.prevent_timeout then (ps1, cs1, WEvent.timerDisable :: evs)
    else (ps1, cs1.enable_timeout, WEvent.timerDisable :: (evs ++ [WEvent.timerEnable]))

/-! ## Field-preservation lemmas for the `Connection` operations -/

@[simp] theorem Connection.disable_timeout_accepted (s : Connection) :
    s.disable_timeout.accepted = s.accepted := by
  unfold Connection.disable_timeout; split <;> rfl

@[simp] theorem Connection.disable_timeout_send_buffer (s : Connection) :
    s.disable_timeout.send_buffer = s.send_buffer := by
  unfold Connection.disable_timeout; split <;> rfl

@[simp] theorem Connection.disable_timeout_stopping (s : Connection) :
    s.disable_timeout.stopping = s.stopping := by
  unfold Connection.disable_timeout; split <;> rfl

@[simp] theorem Connection.disable_timeout_send_id (s : Connection) :
    s.disable_timeout.send_id = s.send_id := by
  unfold Connection.disable_timeout; split <;> rfl

@[simp] theorem Connection.disable_timeout_recv_id (s : Connection) :
    s.disable_timeout.recv_id = s.recv_id := by
  unfold Connection.disable_timeout; split <;> rfl

@[simp] theorem Connection.disable_timeout_timeout (s : Connection) :
    s.disable_timeout.timeout = s.timeout := by
  unfold Connection.disable_timeout; split <;> rfl

@[simp] theorem Connection.disable_timeout_timeout_id (s : Connection) :
    s.disable_timeout.timeout_id = none := by
  unfold Connection.disable_timeout; split <;> simp_all

@[simp] theorem Connection.disable_recv_accepted (s : Connection) :
    s.disable_recv.accepted = s.accepted := by
  unfold Connection.disable_recv; split <;> rfl

@[simp] theorem Connection.disable_recv_send_buffer (s : Connection) :
    s.disable_recv.send_buffer = s.send_buffer := by
  unfold Connection.disable_recv; split <;> rfl

@[simp] theorem Connection.disable_recv_stopping (s : Connection) :
    s.disable_recv.stopping = s.stopping := by
  unfold Connection.disable_recv; split <;> rfl

@[simp] theorem Connection.disable_recv_send_id (s : Connection) :
    s.disable_recv.send_id = s.send_id := by
  unfold Connection.disable_recv; split <;> rfl

@[simp] theorem Connection.disable_recv_timeout (s : Connection) :
    s.disable_recv.timeout = s.timeout := by
  unfold Connection.disable_recv; split <;> rfl

@[simp] theorem Connection.disable_recv_timeout_id (s : Connection) :
    s.disable_recv.timeout_id = s.timeout_id := by
  unfold Connection.disable_recv; split <;> rfl

@[simp] theorem Connection.disable_recv_recv_id (s : Connection) :
    s.disable_recv.recv_id = none := by
  unfold Connection.disable_recv; split <;> simp_all

@[simp] theorem Connection.disable_send_accepted (s : Connection) :
    s.disable_send.accepted = s.accepted := by
  unfold Connection.disable_send; split <;> rfl

@[simp] theorem Connection.disable_send_send_buffer (s : Connection) :
    s.disable_send.send_buffer = s.send_buffer := by
  unfold Connection.disable_send; split <;> rfl

@[simp] theorem Connection.disable_send_stopping (s : Connection) :
    s.disable_send.stopping = s.stopping := by
  unfold Connection.disable_send; split <;> rfl

@[simp] theorem Connection.disable_send_timeout (s : Connection) :
    s.disable_send.timeout = s.timeout := by
  unfold Connection.disable_send; split <;> rfl

@[simp] theorem Connection.disable_send_timeout_id (s : Connection) :
    s.disable_send.timeout_id = s.timeout_id := by
  unfold Connection.disable_send; split <;> rfl

@[simp] theorem Connection.disable_send_send_id (s : Connection) :
    s.disable_send.send_id = none := by
  unfold Connection.disable_send; split <;> simp_all

@[simp] theorem Connection.stop_accepted (s : Connection) :
    s.stop.accepted = s.accepted := by
  unfold Connection.stop; split <;> simp

@[simp] theorem Connection.stop_send_buffer (s : Connection) :
    s.stop.send_buffer = s.send_buffer := by
  unfold Connection.stop; split <;> simp

@[simp] theorem Connection.stop_stopping (s : Connection) :
    s.stop.stopping = true := by
  unfold Connection.stop; split <;> simp_all

@[simp] theorem Connection.stop_timeout (s : Connection) :
    s.stop.timeout = s.timeout := by
  unfold Connection.stop; split <;> simp

@[simp] theorem Connection.enable_timeout_accepted (s : Connection) :
    s.enable_timeout.accepted = s.accepted := by
  unfold Connection.enable_timeout
  cases h : s.timeout with
  | none => rfl
  | some t =>
    by_cases ht : t ≤ 0 <;> simp [ht]

@[simp] theorem Connection.enable_timeout_send_buffer (s : Connection) :
    s.enable_timeout.send_buffer = s.send_buffer := by
  unfold Connection.enable_timeout
  cases h : s.timeout with
  | none => rfl
  | some t =>
    by_cases ht : t ≤ 0 <;> simp [ht]

@[simp] theorem Connection.enable_timeout_stopping (s : Connection) :
    s.enable_timeout.stopping = s.stopping := by
  unfold Connection.enable_timeout
  cases h : s.timeout with
  | none => rfl
  | some t =>
    by_cases ht : t ≤ 0 <;> simp [ht]

@[simp] theorem Connection.enable_timeout_send_id (s : Connection) :
    s.enable_timeout.send_id = s.send_id := by
  unfold Connection.enable_timeout
  cases h : s.timeout with
  | none => rfl
  | some t =>
    by_cases ht : t ≤ 0 <;> simp [ht]

@[simp] theorem Connection.enable_timeout_timeout (s : Connection) :
    s.enable_timeout.timeout = s.timeout := by
  unfold Connection.enable_timeout
  cases h : s.timeout with
  | none => exact h
  | some t =>
    by_cases ht : t ≤ 0 <;> simp [ht, h]

@[simp] theorem Connection.enable_recv_accepted (s : Connection) (reg : Except Unit Unit) :
    (s.enable_recv reg).accepted = s.accepted := by
  unfold Connection.enable_recv
  split
  · rfl
  · cases reg <;> simp

@[simp] theorem Connection.enable_recv_send_buffer (s : Connection) (reg : Except Unit Unit) :
    (s.enable_recv reg).send_buffer = s.send_buffer := by
  unfold Connection.enable_recv
  split
  · rfl
  · cases reg <;> simp

@[simp] theorem Connection.enable_recv_timeout (s : Connection) (reg : Except Unit Unit) :
    (s.enable_recv reg).timeout = s.timeout := by
  unfold Connection.enable_recv
  split
  · rfl
  · cases reg <;> simp

@[simp] theorem Connection.enable_send_accepted (s : Connection) (reg : Except Unit Unit) :
    (s.enable_send reg).accepted = s.accepted := by
  unfold Connection.enable_send
  split
  · rfl
  · cases reg <;> simp

@[simp] theorem Connection.enable_send_send_buffer (s : Connection) (reg : Except Unit Unit) :
    (s.enable_send reg).send_buffer = s.send_buffer := by
  unfold Connection.enable_send
  split
  · rfl
  · cases reg <;> simp

theorem Connection.enable_send_stopping_mono (s : Connection) (reg : Except Unit Unit)
    (h : s.stopping = true) : (s.enable_send reg).stopping = true := by
  unfold Connection.enable_send
  split
  · exact h
  · cases reg <;> simp [h]

theorem Connection.enable_recv_stopping_mono (s : Connection) (reg : Except Unit Unit)
    (h : s.stopping = true) : (s.enable_recv reg).stopping = true := by
  unfold Connection.enable_recv
  split
  · exact h
  · cases reg <;> simp [h]

theorem Connection.send_fst_stopping_mono (s : Connection) (data : Bytes)
    (os : Except Errno Nat) (h : s.stopping = true) :
    (s.send data os).1.stopping = true := by
  cases os with
  | ok n => simpa [Connection.send] using h
  | error e =>
    simp only [Connection.send]
    by_cases he : e = Errno.eagain ∨ e = Errno.eintr
    · simp [he, h]
    · simp [he]

/-- `send` leaves the ghost byte stream and the caller-visible unsent
suffix in balance: what the OS accepted plus what comes back unsent is
exactly the old `accepted` followed by the offered data. -/
theorem Connection.send_conserves (s : Connection) (data : Bytes) (n : Nat) :
    (s.send data (.ok n)).1.accepted ++ (s.send data (.ok n)).2 =
      s.accepted ++ data := by
  simp [Connection.send]

/-! ## The send-buffer interleaving machine (worker enqueues vs. loop drains) -/

/-- One step of the send machinery: a worker `queue_send(data)` whose
inner OS send accepted `sent` bytes, or a write-ready drain
(`send_callback` with good flags, lock acquired) whose OS send accepted
`sent` bytes. -/
inductive SendOp
  | queue (data : Bytes) (sent : Nat)
  | drain (sent : Nat)
deriving DecidableEq, Repr

/-- Run an arbitrary interleaving of enqueues and drains. -/
def run_send_ops : Connection → List SendOp → Connection
  | s, [] => s
  | s, SendOp.queue d n :: ops => run_send_ops (s.queue_send d (.ok n) (.ok ())) ops
  | s, SendOp.drain n :: ops => run_send_ops (s.send_callback false true (.ok n)) ops

/-- Concatenation of the enqueued byte sequences, in enqueue order. -/
def enqueued : List SendOp → Bytes
  | [] => []
  | SendOp.queue d _ :: ops => d ++ enqueued ops
  | SendOp.drain _ :: ops => enqueued ops

theorem queue_send_ok_conserves (s : Connection) (d : Bytes) (n : Nat)
    (reg : Except Unit Unit) :
    (s.queue_send d (.ok n) reg).accepted ++ (s.queue_send d (.ok n) reg).send_buffer
      = s.accepted ++ s.send_buffer ++ d := by
  simp only [Connection.queue_send, Connection.send]
  split <;> simp [List.append_assoc, List.take_append_drop]

theorem send_callback_ok_conserves (s : Connection) (n : Nat) :
    (s.send_callback false true (.ok n)).accepted
      ++ (s.send_callback false true (.ok n)).send_buffer
      = s.accepted ++ s.send_buffer := by
  simp only [Connection.send_callback, Connection.send]
  split_ifs <;> simp_all [List.append_assoc, List.take_append_drop]

theorem run_send_ops_conserves (ops : List SendOp) (s : Connection) :
    (run_send_ops s ops).accepted ++ (run_send_ops s ops).send_buffer
      = s.accepted ++ s.send_buffer ++ enqueued ops := by
  induction ops generalizing s with
  | nil => simp [run_send_ops, enqueued]
  | cons op ops ih =>
    cases op with
    | queue d n =>
      simp only [run_send_ops, enqueued]
      rw [ih, queue_send_ok_conserves]
      simp [List.append_assoc]
    | drain n =>
      simp only [run_send_ops, enqueued]
      rw [ih, send_callback_ok_conserves]

/-- C1: for every interleaving of `queue_send` calls (each with an
arbitrary partial OS accept) and write-ready drain callbacks, starting
from a freshly constructed connection, the bytes handed to the OS
(`accepted`) followed by the bytes still queued (`send_buffer`) are
exactly the concatenation of the enqueued byte sequences in enqueue
order: no byte is duplicated or lost, and only the OS-accepted prefix is
ever removed from the head of the buffer. -/
theorem queue_send_byte_conservation (t : Option Int) (reg : Except Unit Unit)
    (ops : List SendOp) :
    (run_send_ops (Connection.init t reg) ops).accepted
      ++ (run_send_ops (Connection.init t reg) ops).send_buffer
      = enqueued ops := by
  rw [run_send_ops_conserves]
  simp [Connection.init]

/-- C2: delivering a byte stream in arbitrarily sized chunks, each
appended to the persistent `recv_buffer` and drained with
`parse_lines`, produces exactly the lines (and leftover buffer) of
parsing the whole concatenated stream at once: framing is
read-boundary-independent. -/
theorem chunked_parse_eq_whole (chunks : List Bytes) :
    feed_chunks [] chunks = parse_lines chunks.flatten := by
  simpa using feed_chunks_eq_parse_lines chunks [] (by simp)

theorem Connection.stop_of_stopping (s : Connection) (h : s.stopping = true) :
    s.stop = s := by
  unfold Connection.stop
  simp [h]

/-- C3: `stop` is idempotent — a second call is a no-op on the whole
state; on the first call (and only then) the socket close runs exactly
once and each registered watch is deregistered exactly once; nothing in
the model raises (the code swallows `OSError`/`ActorDeadError` on these
paths). -/
theorem stop_idempotent (s : Connection) :
    s.stop.stop = s.stop
    ∧ s.stop.close_calls = s.close_calls + (if s.stopping = true then 0 else 1)
    ∧ s.stop.timeout_removals
        = s.timeout_removals
          + (if s.stopping = false ∧ s.timeout_id.isSome then 1 else 0)
    ∧ s.stop.recv_removals
        = s.recv_removals + (if s.stopping = false ∧ s.recv_id.isSome then 1 else 0)
    ∧ s.stop.send_removals
        = s.send_removals + (if s.stopping = false ∧ s.send_id.isSome then 1 else 0)
    ∧ (s.stopping = true → s.stop = s) := by
  refine ⟨Connection.stop_of_stopping _ (Connection.stop_stopping s), ?_⟩
  cases s with
  | mk buf st rid sid tid tmo cc ac rr sr tr acc =>
    cases st <;> cases rid <;> cases sid <;> cases tid <;>
      simp [Connection.stop, Connection.disable_timeout, Connection.disable_recv,
        Connection.disable_send]

/-- C4: with `max_connections = K`, an accept that arrives while the
live-worker count `n` is at least `K` is rejected (socket closed, no
`Connection`/worker created), and one that arrives while `n < K` builds
a `Connection`+worker pair; since `n` is re-queried from the live actor
registry on every accept, a count that has dropped below `K` admits the
next connection. -/
theorem admission_control (K n : Nat) :
    (K ≤ n → Server.handle_connection (some K) n (.ok ()) = .rejected)
    ∧ (n < K → Server.handle_connection (some K) n (.ok ()) = .connected) := by
  constructor
  · intro h
    simp [Server.handle_connection, Server.accept_connection,
      Server.maximum_connections_exceeded, h]
  · intro h
    have h' : ¬ (n ≥ K) := by omega
    simp [Server.handle_connection, Server.accept_connection,
      Server.maximum_connections_exceeded, h']

theorem admission_control_witness :
    Server.handle_connection (some 2) 2 (.ok ()) = .rejected
    ∧ Server.handle_connection (some 2) 1 (.ok ()) = .connected :=
  ⟨(admission_control 2 2).1 (by decide), (admission_control 2 1).2 (by decide)⟩

@[simp] theorem Connection.disable_recv_close_calls (s : Connection) :
    s.disable_recv.close_calls = s.close_calls := by
  unfold Connection.disable_recv; split <;> rfl

/-- C5: an error-free zero-byte receive disables the read watch and
delivers a `close` notification to the worker — it neither sets
`stopping` nor closes the socket itself; on the `close` notification the
worker requests `Connection.stop` and processes no lines (worker state
and `recv_buffer` untouched). -/
theorem orderly_peer_close (s : Connection) (dead : Bool) (ps : LineProtocol)
    (cs : Connection) (d : Bytes → Option Bytes) :
    (s.recv_callback false (.ok []) dead).1.recv_id = none
    ∧ (s.recv_callback false (.ok []) dead).2 = [Message.close]
    ∧ (s.recv_callback false (.ok []) dead).1.stopping = s.stopping
    ∧ (s.recv_callback false (.ok []) dead).1.close_calls = s.close_calls
    ∧ ps.on_receive cs d Message.close = (ps, cs.stop, [WEvent.stopRequested])
    ∧ (ps.on_receive cs d Message.close).2.1.stopping = true := by
  refine ⟨?_, ?_, ?_, ?_, rfl, ?_⟩ <;>
    simp [Connection.recv_callback, LineProtocol.on_receive]

/-! ## The write-watch/send-buffer invariant -/

/-- The spec's claimed invariant: while not stopping, the write watch is
armed iff `send_buffer` is non-empty. -/
abbrev sendWatchIffInv (s : Connection) : Prop :=
  s.stopping = false → (s.send_id.isSome = true ↔ s.send_buffer ≠ [])

/-- The invariant the code actually maintains: while not stopping, a
non-empty `send_buffer` implies the write watch is armed.  (The converse
can be transiently false: a `queue_send` that drains the buffer
completely leaves the watch armed until the next drain callback disarms
it.) -/
abbrev sendWatchInv (s : Connection) : Prop :=
  s.stopping = false → s.send_buffer ≠ [] → s.send_id.isSome = true

/-- A reachable state with one queued byte and the write watch armed, as
produced by a `queue_send(b"x")` whose OS send accepted nothing. -/
def armedOneByte : Connection :=
  { send_buffer := [120], stopping := false, recv_id := some (), send_id := some (),
    timeout_id := none, timeout := some 30, close_calls := 0, actor_stop_calls := 0,
    recv_removals := 0, send_removals := 0, timeout_removals := 0, accepted := [] }

/-- C6 counterexample: `queue_send(b"y")` from `armedOneByte` with the OS
accepting both bytes empties `send_buffer` but leaves the write watch
armed, so the claimed iff-invariant is not preserved. -/
theorem send_watch_iff_not_preserved :
    sendWatchIffInv armedOneByte
    ∧ ¬ sendWatchIffInv (armedOneByte.queue_send [121] (.ok 2) (.ok ())) := by
  constructor
  · decide
  · decide

theorem sendWatchInv_of_stopping (r : Connection) (h : r.stopping = true) :
    sendWatchInv r := by
  intro hs
  rw [h] at hs
  cases hs

theorem sendWatchInv_of_empty (r : Connection) (h : r.send_buffer = []) :
    sendWatchInv r := fun _ hb => absurd h hb

theorem enable_send_armed_or_stopping (s : Connection) (reg : Except Unit Unit) :
    (s.enable_send reg).stopping = true
    ∨ (s.enable_send reg).send_id.isSome = true := by
  unfold Connection.enable_send
  split
  · rename_i h
    exact Or.inr (by simpa [Option.isSome_iff_ne_none] using h)
  · cases reg with
    | ok u => exact Or.inr (by simp)
    | error u => exact Or.inl (by simp)

theorem queue_send_sendWatchInv (s : Connection) (data : Bytes)
    (os : Except Errno Nat) (reg : Except Unit Unit) :
    sendWatchInv (s.queue_send data os reg) := by
  unfold Connection.queue_send
  by_cases h2 : (s.send (s.send_buffer ++ data) os).2 = []
  · rw [if_neg (not_not_intro h2)]
    exact sendWatchInv_of_empty _ h2
  · rw [if_pos h2]
    intro hstop hbuf
    rcases enable_send_armed_or_stopping
        { (s.send (s.send_buffer ++ data) os).1 with
          send_buffer := (s.send (s.send_buffer ++ data) os).2 } reg with h | h
    · rw [h] at hstop; cases hstop
    · exact h

theorem send_callback_sendWatchInv (s : Connection) (bf lk : Bool)
    (os : Except Errno Nat) (h : sendWatchInv s) :
    sendWatchInv (s.send_callback bf lk os) := by
  unfold Connection.send_callback
  cases bf with
  | true => exact sendWatchInv_of_stopping _ (Connection.stop_stopping s)
  | false =>
    cases lk with
    | false => exact h
    | true =>
      simp only [Bool.false_eq_true, if_false, Bool.not_true]
      by_cases h2 : (s.send s.send_buffer os).2 = []
      · rw [if_pos h2]
        exact sendWatchInv_of_empty _ (by simp [h2])
      · rw [if_neg h2]
        cases os with
        | ok n =>
          intro hstop hbuf
          simp only [Connection.send] at h2 hstop hbuf ⊢
          have hb : s.send_buffer ≠ [] := by
            intro he
            exact h2 (by simp [he])
          exact h hstop hb
        | error e =>
          by_cases he : e = Errno.eagain ∨ e = Errno.eintr
          · intro hstop hbuf
            simp only [Connection.send, he, if_pos] at hstop hbuf ⊢
            exact h hstop hbuf
          · exact sendWatchInv_of_stopping _
              (by simp [Connection.send, he])

theorem enable_send_sendWatchInv (s : Connection) (reg : Except Unit Unit)
    (_h : sendWatchInv s) : sendWatchInv (s.enable_send reg) := by
  intro hstop hbuf
  rcases enable_send_armed_or_stopping s reg with h1 | h1
  · rw [h1] at hstop; cases hstop
  · exact h1

theorem enable_recv_sendWatchInv (s : Connection) (reg : Except Unit Unit)
    (h : sendWatchInv s) : sendWatchInv (s.enable_recv reg) := by
  unfold Connection.enable_recv
  split
  · exact h
  · cases reg with
    | ok u =>
      intro hstop hbuf
      exact h (by simpa using hstop) (by simpa using hbuf)
    | error u => exact sendWatchInv_of_stopping _ (Connection.stop_stopping s)

theorem enable_timeout_sendWatchInv (s : Connection) (h : sendWatchInv s) :
    sendWatchInv s.enable_timeout := by
  intro hstop hbuf
  rw [Connection.enable_timeout_send_id]
  exact h (by simpa using hstop) (by simpa using hbuf)

theorem disable_timeout_sendWatchInv (s : Connection) (h : sendWatchInv s) :
    sendWatchInv s.disable_timeout := by
  intro hstop hbuf
  rw [Connection.disable_timeout_send_id]
  exact h (by simpa using hstop) (by simpa using hbuf)

theorem disable_recv_sendWatchInv (s : Connection) (h : sendWatchInv s) :
    sendWatchInv s.disable_recv := by
  intro hstop hbuf
  rw [Connection.disable_recv_send_id]
  exact h (by simpa using hstop) (by simpa using hbuf)

theorem queue_send_stopping_mono (s : Connection) (data : Bytes)
    (os : Except Errno Nat) (reg : Except Unit Unit) (h : s.stopping = true) :
    (s.queue_send data os reg).stopping = true := by
  unfold Connection.queue_send
  have hp : (s.send (s.send_buffer ++ data) os).1.stopping = true :=
    Connection.send_fst_stopping_mono s _ os h
  by_cases h2 : (s.send (s.send_buffer ++ data) os).2 = []
  · rw [if_neg (not_not_intro h2)]
    simpa using hp
  · rw [if_pos h2]
    exact Connection.enable_send_stopping_mono _ reg (by simpa using hp)

theorem send_callback_stopping_mono (s : Connection) (bf lk : Bool)
    (os : Except Errno Nat) (h : s.stopping = true) :
    (s.send_callback bf lk os).stopping = true := by
  unfold Connection.send_callback
  have hp : (s.send s.send_buffer os).1.stopping = true :=
    Connection.send_fst_stopping_mono s _ os h
  cases bf with
  | true => simp
  | false =>
    cases lk with
    | false => simpa using h
    | true =>
      simp only [Bool.false_eq_true, if_false, Bool.not_true]
      split
      · rw [Connection.disable_send_stopping]; simpa using hp
      · simpa using hp

/-- C6 (amended): `queue_send`, the drain callback, `stop`, and the
enable/disable helpers other than `disable_send` all preserve the
invariant "while not stopping, a non-empty `send_buffer` implies the
write watch is armed" (the iff version fails, see the counterexample:
`queue_send` may leave the watch armed on an empty buffer until the next
drain callback disarms it, and a bare `disable_send` — which the code
only invokes on an empty buffer or while stopping — disarms regardless);
and `stopping` is monotone under every one of these operations,
`disable_send` included. -/
theorem send_watch_invariant (s : Connection) :
    (∀ data os reg, sendWatchInv s → sendWatchInv (s.queue_send data os reg))
    ∧ (∀ bf lk os, sendWatchInv s → sendWatchInv (s.send_callback bf lk os))
    ∧ (sendWatchInv s → sendWatchInv s.stop)
    ∧ (∀ reg, sendWatchInv s → sendWatchInv (s.enable_send reg))
    ∧ (∀ reg, sendWatchInv s → sendWatchInv (s.enable_recv reg))
    ∧ (sendWatchInv s → sendWatchInv s.enable_timeout)
    ∧ (sendWatchInv s → sendWatchInv s.disable_timeout)
    ∧ (sendWatchInv s → sendWatchInv s.disable_recv)
    ∧ (∀ data os reg, s.stopping = true → (s.queue_send data os reg).stopping = true)
    ∧ (∀ bf lk os, s.stopping = true → (s.send_callback bf lk os).stopping = true)
    ∧ (s.stopping = true → s.stop.stopping = true)
    ∧ (∀ reg, s.stopping = true → (s.enable_send reg).stopping = true)
    ∧ (∀ reg, s.stopping = true → (s.enable_recv reg).stopping = true)
    ∧ (s.stopping = true → s.enable_timeout.stopping = true)
    ∧ (s.stopping = true → s.disable_timeout.stopping = true)
    ∧ (s.stopping = true → s.disable_recv.stopping = true)
    ∧ (s.stopping = true → s.disable_send.stopping = true) :=
  ⟨fun data os reg _ => queue_send_sendWatchInv s data os reg,
   fun bf lk os h => send_callback_sendWatchInv s bf lk os h,
   fun _ => sendWatchInv_of_stopping _ (Connection.stop_stopping s),
   fun reg h => enable_send_sendWatchInv s reg h,
   fun reg h => enable_recv_sendWatchInv s reg h,
   enable_timeout_sendWatchInv s,
   disable_timeout_sendWatchInv s,
   disable_recv_sendWatchInv s,
   fun data os reg h => queue_send_stopping_mono s data os reg h,
   fun bf lk os h => send_callback_stopping_mono s bf lk os h,
   fun _ => Connection.stop_stopping s,
   fun reg h => Connection.enable_send_stopping_mono s reg h,
   fun reg h => Connection.enable_recv_stopping_mono s reg h,
   fun h => by rw [Connection.enable_timeout_stopping]; exact h,
   fun h => by rw [Connection.disable_timeout_stopping]; exact h,
   fun h => by rw [Connection.disable_recv_stopping]; exact h,
   fun h => by rw [Connection.disable_send_stopping]; exact h⟩

theorem send_watch_invariant_witness :
    sendWatchInv (armedOneByte.queue_send [121] (.ok 2) (.ok ()))
    ∧ armedOneByte.stop.stop.stopping = true :=
  ⟨(send_watch_invariant armedOneByte).1 [121] (.ok 2) (.ok ()) (by decide),
   (send_watch_invariant armedOneByte.stop).2.2.2.2.2.2.2.2.2.2.1
     (Connection.stop_stopping armedOneByte)⟩

/-! ## Timer discipline and error handling -/

/-- Extract the line carried by a `lineHandled` event. -/
def lineEvent : WEvent → Option Bytes
  | WEvent.lineHandled l => some l
  | _ => none

theorem process_lines_count_enable (d : Bytes → Option Bytes) (ls : List Bytes) :
    (process_lines d ls).count WEvent.timerEnable = 0 := by
  induction ls with
  | nil => rfl
  | cons l ls ih =>
    unfold process_lines
    cases d l <;> simp [List.count_cons, ih]

theorem process_lines_filterMap (d : Bytes → Option Bytes) (ls : List Bytes) :
    (process_lines d ls).filterMap lineEvent = ls.filterMap d := by
  induction ls with
  | nil => rfl
  | cons l ls ih =>
    unfold process_lines
    cases hd : d l <;> simp [List.filterMap_cons, hd, ih, lineEvent]

/-- C7: the idle timer is single-shot (`timeout_callback` returns `False`
to GLib and stops the connection), and on every `received` notification
the worker disables the timer first, then handles every line framed in
the buffer, and calls `enable_timeout` exactly once, after the last of
those lines, and only when `prevent_timeout` is unset. -/
theorem timer_discipline (s : Connection) (ps : LineProtocol) (cs : Connection)
    (d : Bytes → Option Bytes) (data : Bytes) :
    (Connection.timeout_callback s).2 = false
    ∧ (Connection.timeout_callback s).1.stopping = true
    ∧ (ps.on_receive cs d (.received data)).2.2.head? = some WEvent.timerDisable
    ∧ ((ps.on_receive cs d (.received data)).2.2.count WEvent.timerEnable
        = if ps.prevent_timeout then 0 else 1)
    ∧ (ps.prevent_timeout = false →
        (ps.on_receive cs d (.received data)).2.2.getLast? = some WEvent.timerEnable)
    ∧ ((ps.on_receive cs d (.received data)).2.2.filterMap lineEvent
        = (parse_lines (ps.recv_buffer ++ data)).1.filterMap d) := by
  refine ⟨rfl, Connection.stop_stopping s, ?_, ?_, ?_, ?_⟩
  · by_cases hp : ps.prevent_timeout <;> simp [LineProtocol.on_receive, hp]
  · by_cases hp : ps.prevent_timeout <;>
      simp [LineProtocol.on_receive, hp, List.count_cons, List.count_append,
        process_lines_count_enable]
  · intro hp
    simp only [LineProtocol.on_receive, hp, Bool.false_eq_true, if_false]
    rw [show WEvent.timerDisable
          :: (process_lines d (parse_lines (ps.recv_buffer ++ data)).1
              ++ [WEvent.timerEnable])
        = (WEvent.timerDisable
            :: process_lines d (parse_lines (ps.recv_buffer ++ data)).1)
          ++ [WEvent.timerEnable] from rfl]
    exact List.getLast?_concat _
  · by_cases hp : ps.prevent_timeout <;>
      simp [LineProtocol.on_receive, hp, List.filterMap_cons, List.filterMap_append,
        process_lines_filterMap, lineEvent]

theorem timer_discipline_witness :
    ((LineProtocol.mk [] false).on_receive (Connection.init (some 30) (.ok ()))
        some (.received [104, 10])).2.2.getLast? = some WEvent.timerEnable :=
  (timer_discipline (Connection.init (some 30) (.ok ())) (LineProtocol.mk [] false)
    (Connection.init (some 30) (.ok ())) some [104, 10]).2.2.2.2.1 rfl

/-- C8: would-block (EAGAIN = EWOULDBLOCK) and EINTR on send or receive
leave the connection state unchanged (the data stays queued, no message
is delivered, nothing is stopped) so the call is simply retried at the
next readiness event; the same errnos at accept time yield
`ShouldRetrySocketCall`, which `handle_connection` converts into a plain
`True` return, keeping the accept watch armed with nothing created; any
other errno on send or receive stops that single connection (and the
failed send discards its buffer). -/
theorem transient_os_errors (s : Connection) (data : Bytes) (dead : Bool)
    (maxc : Option Nat) (n : Nat) (e : Errno) :
    s.send data (.error .eagain) = (s, data)
    ∧ s.send data (.error .eintr) = (s, data)
    ∧ s.recv_callback false (.error .eagain) dead = (s, [])
    ∧ s.recv_callback false (.error .eintr) dead = (s, [])
    ∧ (e = .eagain ∨ e = .eintr →
        Server.handle_connection maxc n (.error e) = .retried)
    ∧ (s.send data (.error .other)).1.stopping = true
    ∧ (s.send data (.error .other)).2 = []
    ∧ (s.recv_callback false (.error .other) dead).1.stopping = true := by
  refine ⟨?_, ?_, ?_, ?_, ?_, ?_, ?_, ?_⟩
  · simp [Connection.send]
  · simp [Connection.send]
  · simp [Connection.recv_callback]
  · simp [Connection.recv_callback]
  · rintro (h | h) <;> subst h <;>
      simp [Server.handle_connection, Server.accept_connection]
  · simp [Connection.send]
  · simp [Connection.send]
  · simp [Connection.recv_callback]

theorem transient_os_errors_witness :
    Server.handle_connection (some 5) 0 (.error .eagain) = .retried :=
  (transient_os_errors (Connection.init (some 30) (.ok ())) [] false (some 5) 0
    .eagain).2.2.2.2.1 (Or.inl rfl)

/-- C9 counterexample: a `unix:` host together with a numeric port is
accepted — the port is silently ignored and a Unix socket is bound; no
configuration error is raised. -/
theorem unix_host_with_port_not_rejected :
    Server.create_server_socket
        ['u', 'n', 'i', 'x', ':', '/', 't', 'm', 'p', '/', 's', 'o', 'c', 'k']
        (some 6600)
      = BindResult.unixSock ['/', 't', 'm', 'p', '/', 's', 'o', 'c', 'k']
    ∧ Server.create_server_socket
        ['u', 'n', 'i', 'x', ':', '/', 't', 'm', 'p', '/', 's', 'o', 'c', 'k']
        (some 6600)
      ≠ BindResult.typeError := by
  constructor
  · rfl
  · decide

/-- C9 (amended): only one direction of the claimed validation exists: a
host that is not a `unix:` path together with a non-integer port raises
`TypeError`, while a `unix:` path host binds the Unix socket and ignores
any supplied port entirely. -/
theorem create_server_socket_validation (host : List Char) (port : Option Int) :
    (get_unix_socket_path host = none → port = none →
      Server.create_server_socket host port = BindResult.typeError)
    ∧ (∀ p, get_unix_socket_path host = some p →
        Server.create_server_socket host port = BindResult.unixSock p) := by
  constructor
  · intro h1 h2
    simp [Server.create_server_socket, h1, h2]
  · intro p hp
    simp [Server.create_server_socket, hp]

theorem create_server_socket_validation_witness :
    Server.create_server_socket ['l', 'o', 'c', 'a', 'l', 'h', 'o', 's', 't'] none
        = BindResult.typeError
    ∧ Server.create_server_socket ['u', 'n', 'i', 'x', ':', '/', 's'] (some 1)
        = BindResult.unixSock ['/', 's'] :=
  ⟨(create_server_socket_validation ['l', 'o', 'c', 'a', 'l', 'h', 'o', 's', 't']
      none).1 (by decide) rfl,
   (create_server_socket_validation ['u', 'n', 'i', 'x', ':', '/', 's']
      (some 1)).2 ['/', 's'] (by decide)⟩

/-! ## Disabled idle timeout -/

/-- A sequence of timer manipulations (`enable_timeout` /
`disable_timeout`) as the worker performs them over time. -/
inductive TimerOp
  | enable
  | disable
deriving DecidableEq, Repr

def run_timer_ops : Connection → List TimerOp → Connection
  | s, [] => s
  | s, TimerOp.enable :: ops => run_timer_ops s.enable_timeout ops
  | s, TimerOp.disable :: ops => run_timer_ops s.disable_timeout ops

theorem enable_timeout_noop (s : Connection)
    (h : s.timeout = none ∨ ∃ x, s.timeout = some x ∧ x ≤ 0) :
    s.enable_timeout = s := by
  unfold Connection.enable_timeout
  rcases h with h | ⟨x, hx, hle⟩
  · rw [h]
  · rw [hx]
    simp [hle]

theorem run_timer_ops_timeout_id_none (ops : List TimerOp) (s : Connection)
    (ht : s.timeout = none ∨ ∃ x, s.timeout = some x ∧ x ≤ 0)
    (h0 : s.timeout_id = none) :
    (run_timer_ops s ops).timeout_id = none := by
  induction ops generalizing s with
  | nil => exact h0
  | cons op ops ih =>
    cases op with
    | enable =>
      simp only [run_timer_ops, enable_timeout_noop s ht]
      exact ih s ht h0
    | disable =>
      simp only [run_timer_ops]
      exact ih _ (by simpa using ht) (by simp)

/-- C10: with `timeout` equal to `None` or any value `≤ 0`,
`enable_timeout()` returns without arming a timer: a freshly constructed
connection has no timer, `enable_timeout` is the identity, and no
sequence of enable/disable timer operations ever arms one, so the idle
timer can never fire and `timeout = 0` means "never time out". -/
theorem nonpositive_timeout_never_armed (t : Option Int) (reg : Except Unit Unit)
    (s : Connection) (ops : List TimerOp)
    (ht : t = none ∨ ∃ x, t = some x ∧ x ≤ 0) (hs : s.timeout = t) :
    (Connection.init t reg).timeout_id = none
    ∧ s.enable_timeout = s
    ∧ (s.timeout_id = none → (run_timer_ops s ops).timeout_id = none) := by
  have hts : s.timeout = none ∨ ∃ x, s.timeout = some x ∧ x ≤ 0 := by
    rw [hs]; exact ht
  refine ⟨?_, enable_timeout_noop s hts, fun h0 => run_timer_ops_timeout_id_none ops s hts h0⟩
  unfold Connection.init
  rw [enable_timeout_noop _ (by simpa using ht)]
  cases reg with
  | ok u => simp [Connection.enable_recv]
  | error u =>
    simp [Connection.enable_recv, Connection.stop, Connection.disable_timeout,
      Connection.disable_recv, Connection.disable_send]

theorem nonpositive_timeout_never_armed_witness :
    (Connection.init (some 0) (.ok ())).timeout_id = none
    ∧ (Connection.init (some 0) (.ok ())).enable_timeout
        = Connection.init (some 0) (.ok ())
    ∧ (run_timer_ops (Connection.init (some 0) (.ok ()))
        [TimerOp.enable, TimerOp.disable, TimerOp.enable]).timeout_id = none := by
  have h := nonpositive_timeout_never_armed (some 0) (.ok ())
    (Connection.init (some 0) (.ok ()))
    [TimerOp.enable, TimerOp.disable, TimerOp.enable]
    (Or.inr ⟨0, rfl, le_refl 0⟩) (by decide)
  exact ⟨h.1, h.2.1, h.2.2 (by decide)⟩

theorem stop_idempotent_witness :
    (Connection.init (some 30) (.ok ())).stop.stop
      = (Connection.init (some 30) (.ok ())).stop :=
  (stop_idempotent (Connection.init (some 30) (.ok ())).stop).2.2.2.2.2 (by decide)
